import Mathlib

/-!
# Verification of the MobiusClock core (src/script.js)

Shallow embedding of the mesh assembler, material classifier, time-to-position
mapping, fast-mode time transform, indicator-geometry selection and zen-mode
toggle of `script.js`, together with theorems settling the specification
claims about them.

JavaScript numeric operations are modelled over `ℚ`:
* `x % m` (the JS remainder, sign of the dividend) is `jsRem`;
* `Math.floor` is `Int.floor`; `Math.round` is `fun x => ⌊x + 1/2⌋`
  (the ECMAScript definition for finite arguments);
* integer `%` on non-negative operands coincides with `Int.emod`.
-/

namespace MobiusClock

/-- JS `Math.trunc`-style truncation used by the `%` operator: toward zero. -/
def jsTrunc (q : ℚ) : ℤ := if 0 ≤ q then ⌊q⌋ else ⌈q⌉

/-- The JS remainder operator `x % m`: `x - m * trunc (x / m)`. -/
def jsRem (x m : ℚ) : ℚ := x - m * (jsTrunc (x / m) : ℚ)

/-- The normalisation idiom `((x % m) + m) % m` from `script.js`,
used to keep the edge-path index non-negative. -/
def jsNormMod (x m : ℚ) : ℚ := jsRem (jsRem x m + m) m

/-- `Math.round` for finite non-negative arguments: `⌊x + 1/2⌋`. -/
def jsRound (x : ℚ) : ℤ := ⌊x + 1 / 2⌋

/-- `const NRECT = 360;` — the number of cross-sections. -/
def NRECT : ℕ := 360

/-! ## StripMeshAssembler (`createMobiusStripMesh`, lines 233–327)

The vertex buffer is modelled at the granularity of 3D points (each JS push
of `x, y, z` is one point); the eight per-cross-section point families are
abstract parameters since the counting and indexing claims do not depend on
the coordinates. -/

/-- The vertex buffer of `createMobiusStripMesh`: for each cross-section `i`
push front-inner, back-inner, front-outer, back-outer, then the four
thirdway points (lines 233–254). -/
def mobiusVertices {P : Type} (fic bic foc boc tfbi tbfi tfbo tbfo : ℕ → P)
    (numPoints : ℕ) : List P :=
  (List.range numPoints).flatMap fun i =>
    [fic i, bic i, foc i, boc i, tfbi i, tbfi i, tfbo i, tbfo i]

/-- The point pushed at offset `k` of a cross-section, `k < 8`, in source
push order. -/
def crossSectionPoint {P : Type} (fic bic foc boc tfbi tbfi tfbo tbfo : ℕ → P)
    (k i : ℕ) : P :=
  match k with
  | 0 => fic i
  | 1 => bic i
  | 2 => foc i
  | 3 => boc i
  | 4 => tfbi i
  | 5 => tbfi i
  | 6 => tfbo i
  | _ => tbfo i

/-- The 48-entry triangle-index pattern of one segment, as a function of the
sixteen vertex indices it connects (the push sequence of lines 296–326). -/
def segTemplate (fi1 bi1 fo1 bo1 fi3 bi3 fo3 bo3 fi2 bi2 fo2 bo2 fi4 bi4 fo4 bo4 : ℕ) :
    List ℕ :=
  [fi2, fi3, fi1,  fi2, fi4, fi3,  fo1, fo3, fo2,  fo4, fo2, fo3,
   fo1, fi2, fi1,  fo2, fi2, fo1,
   bi4, bi1, bi3,  bi4, bi2, bi1,  bo4, bo3, bo1,  bo4, bo1, bo2,
   bi2, bo1, bi1,  bi2, bo2, bo1,
   fi4, bi3, fi3,  fi4, bi4, bi3,  fo4, fo3, bo3,  fo4, bo3, bo4]

/-- The triangle indices emitted for segment `i` (loop body, lines 256–327),
including the `i === numPoints - 1` substitution of lines 284–294. -/
def segIndices (numPoints i : ℕ) : List ℕ :=
  let r1 := i
  let r2 := (i + 1) % numPoints
  let fi1 := r1 * 8
  let bi1 := fi1 + 1
  let fo1 := fi1 + 2
  let bo1 := fi1 + 3
  let fi3 := fi1 + 4
  let bi3 := fi1 + 5
  let fo3 := fi1 + 6
  let bo3 := fi1 + 7
  let fi2 := r2 * 8
  let bi2 := fi2 + 1
  let fo2 := fi2 + 2
  let bo2 := fi2 + 3
  let fi4 := fi2 + 4
  let bi4 := fi2 + 5
  let fo4 := fi2 + 6
  let bo4 := fi2 + 7
  -- must reverse the order for last slice due to 180 rotation
  let bo2 := if i = numPoints - 1 then 0 else bo2
  let fo2 := if i = numPoints - 1 then 1 else fo2
  let bi2 := if i = numPoints - 1 then 2 else bi2
  let fi2 := if i = numPoints - 1 then 3 else fi2
  let bo4 := if i = numPoints - 1 then 4 else bo4
  let fo4 := if i = numPoints - 1 then 5 else fo4
  let bi4 := if i = numPoints - 1 then 6 else bi4
  let fi4 := if i = numPoints - 1 then 7 else fi4
  segTemplate fi1 bi1 fo1 bo1 fi3 bi3 fo3 bo3 fi2 bi2 fo2 bo2 fi4 bi4 fo4 bo4

/-- The full index buffer: concatenation of all segments' triangle indices. -/
def mobiusIndices (numPoints : ℕ) : List ℕ :=
  (List.range numPoints).flatMap (segIndices numPoints)

/-! ## MaterialGroupClassifier (lines 336–367) -/

/-- Material selection for segment `i` under a tick scheme: the
`(matOuter, matMiddle)` pair computed by the `switch (currentTickScheme)`
of lines 336–367 (both start at `0`; no `default` case). -/
def classifySegment (scheme : String) (i : ℕ) : ℕ × ℕ :=
  let isHourTick := i % 30 == 0
  let isMinuteTick := i % 6 == 0
  let hourIndex := i / 30
  let minuteIndex := i / 6
  if scheme == "minimal" then
    ((if isHourTick then 1 else 0), (if isHourTick then 1 else 0))
  else if scheme == "standard" then
    ((if isHourTick then 1 else 0), (if isHourTick || isMinuteTick then 1 else 0))
  else if scheme == "alternating" then
    ((if hourIndex % 2 == 0 then 0 else 2), (if hourIndex % 2 == 0 then 0 else 2))
  else if scheme == "alternating_ticks" then
    ((if hourIndex % 2 == 0 then 0 else 2), (if minuteIndex % 2 == 0 then 2 else 0))
  else
    (0, 0)

/-! ## Indicator geometry selection (`setIndicatorShape`, lines 1021–1048) -/

/-- The geometry objects constructible in `setIndicatorShape`. -/
inductive Geometry where
  | cylinder (radiusTop radiusBottom height : ℚ) (radialSegments : ℕ)
  | torus (radius tube : ℚ) (radialSegments tubularSegments : ℕ)
  | sphere (radius : ℚ) (widthSegments heightSegments : ℕ)
deriving DecidableEq

/-- `const m_SecondsRadius = 0.35;` -/
def m_SecondsRadius : ℚ := 0.35
/-- `const m_MinutesRadius = 0.45;` -/
def m_MinutesRadius : ℚ := 0.45
/-- `const m_HourSphereRadius = 0.55;` -/
def m_HourSphereRadius : ℚ := 0.55

/-- The `geometry` variable after the shape/type branches of
`setIndicatorShape` (lines 1024–1048); `none` models it remaining
`undefined`. -/
def geometryFor (type shape : String) : Option Geometry :=
  if shape == "disc" then
    if type == "hours" then some (.cylinder m_HourSphereRadius m_HourSphereRadius 0.1 32)
    else if type == "minutes" then some (.cylinder m_MinutesRadius m_MinutesRadius 0.1 32)
    else if type == "seconds" then some (.cylinder m_SecondsRadius m_SecondsRadius 0.1 32)
    else none
  else if shape == "ring" || shape == "outer-ring" then
    if type == "hours" then
      if shape == "outer-ring" then some (.torus 0.4 0.13 16 32)
      else some (.torus m_HourSphereRadius 0.15 16 32)
    else if type == "minutes" then some (.torus m_MinutesRadius 0.12 16 32)
    else none
  else
    if type == "hours" then some (.sphere m_HourSphereRadius 32 32)
    else if type == "minutes" then some (.sphere m_MinutesRadius 32 32)
    else if type == "seconds" then some (.sphere m_SecondsRadius 32 32)
    else none

/-! ## FastModeTimeTransform (`updateClock`, lines 864–889) -/

/-- The rewrite of `(hour24, min60)` performed by the fast-mode branches of
`updateClock` (lines 864–889); with fast mode off both values pass through. -/
def fastTransform (fastMode : Bool) (shapeHours : String) (sec60 hour24 min60 : ℚ) :
    ℚ × ℚ :=
  if fastMode && shapeHours == "outer-ring" then
    let rawFastHour24 := (24 / 60 : ℚ) * sec60
    let fractionalHour := jsRem rawFastHour24 1
    let minutesWithinHour :=
      if fractionalHour < 1 / 2 then fractionalHour * 60 else (1 - fractionalHour) * 60
    let pausedHour : ℚ :=
      if minutesWithinHour ≤ 12 then (jsRound rawFastHour24 : ℚ) else rawFastHour24
    let rawHourFrac := rawFastHour24 - (⌊rawFastHour24⌋ : ℚ)
    (pausedHour, rawHourFrac * 60)
  else if fastMode then
    let hour := (24 / 60 : ℚ) * sec60
    let hourFrac := hour - (⌊hour⌋ : ℚ)
    (hour, hourFrac * 60)
  else
    (hour24, min60)

/-- The continuous time values `(hour24, min60, sec60)` computed at the top
of `updateClock` (lines 848–889) from the integer wall-clock fields, after
the fast-mode transform. -/
def computeTimes (fastMode : Bool) (shapeHours : String)
    (iHour24 iMin60 iSec60 millisec : ℕ) : ℚ × ℚ × ℚ :=
  let sec60 : ℚ := (iSec60 : ℚ) + (millisec : ℚ) / 1000
  let min60 : ℚ := (iMin60 : ℚ) + sec60 / 60
  let hour24 : ℚ := (iHour24 : ℚ) + min60 / 60
  let hm := fastTransform fastMode shapeHours sec60 hour24 min60
  (hm.1, hm.2, sec60)

/-! ## TimeToPositionMapping (`updateClock`, lines 923–941) -/

/-- `pathIndexFloat` (line 924): the fractional edge-path index of the hour
indicator, normalised to be non-negative. -/
def pathIndexFloat (hour24 : ℚ) : ℚ :=
  let hourProgress := hour24 / 24
  jsNormMod ((NRECT : ℚ) / 2 - hourProgress * (2 * (NRECT : ℚ))) (2 * (NRECT : ℚ))

/-- `index1 = Math.floor(pathIndexFloat)` (line 926). -/
def index1 (hour24 : ℚ) : ℤ := ⌊pathIndexFloat hour24⌋

/-- `index2 = (index1 + 1) % (2 * NRECT)` (line 927); `index1 + 1` is
non-negative, so the JS `%` agrees with `Int.emod`. -/
def index2 (hour24 : ℚ) : ℤ := (index1 hour24 + 1) % (2 * (NRECT : ℤ))

/-- `fraction = pathIndexFloat - index1` (line 928). -/
def fraction (hour24 : ℚ) : ℚ := pathIndexFloat hour24 - (index1 hour24 : ℚ)

/-- `centerIndex1 = index1 % m_NumPoints` (line 937). -/
def centerIndex1 (hour24 : ℚ) : ℤ := index1 hour24 % (NRECT : ℤ)

/-- `centerIndex2 = index2 % m_NumPoints` (line 938). -/
def centerIndex2 (hour24 : ℚ) : ℤ := index2 hour24 % (NRECT : ℤ)

/-! ## Zen mode (`toggleZenMode`, lines 747–798) -/

/-- The snapshot stored in `preZenState` on entering zen mode (lines 760–767). -/
structure PreZenState where
  hoursVisible : Bool
  tickScheme : String
  sceneBackground : ℕ
  fastMode : Bool
  backgroundImage : String
  backgroundColor : String
deriving DecidableEq

/-- The mutable configuration read and written by `toggleZenMode`.
`hourNumbersVisible` is `none` while `hourNumbersGroup` is null. -/
structure ClockState where
  zenMode : Bool
  currentTickScheme : String
  hourNumbersVisible : Option Bool
  fastMode : Bool
  sceneBackground : ℕ
  bodyBackgroundImage : String
  bodyBackgroundColor : String
  preZenState : PreZenState
deriving DecidableEq

/-- `toggleZenMode` (lines 747–798): flips `zenMode`; on entry snapshots the
configuration, hides hour labels, forces the `minimal` scheme, clears fast
mode and darkens the background; on exit restores from the snapshot. -/
def toggleZenMode (s : ClockState) : ClockState :=
  let zen := !s.zenMode
  if zen then
    { s with
      zenMode := zen
      preZenState :=
        { hoursVisible := s.hourNumbersVisible.getD false
          tickScheme := s.currentTickScheme
          sceneBackground := s.sceneBackground
          fastMode := s.fastMode
          backgroundImage := s.bodyBackgroundImage
          backgroundColor := s.bodyBackgroundColor }
      hourNumbersVisible := s.hourNumbersVisible.map fun _ => false
      currentTickScheme := "minimal"
      fastMode := false
      sceneBackground := 0x2a2a2a }
  else
    { s with
      zenMode := zen
      hourNumbersVisible := s.hourNumbersVisible.map fun _ => s.preZenState.hoursVisible
      currentTickScheme := s.preZenState.tickScheme
      fastMode := s.preZenState.fastMode
      sceneBackground := s.preZenState.sceneBackground
      bodyBackgroundColor := s.preZenState.backgroundColor }

/-! ## Arithmetic lemmas about the JS remainder model -/

theorem jsRem_nonneg_div {x m : ℚ} (hm : m ≠ 0) (h : 0 ≤ x / m) :
    jsRem x m = m * Int.fract (x / m) := by
  unfold jsRem jsTrunc
  rw [if_pos h, Int.fract, mul_sub, mul_div_cancel₀ _ hm]

theorem jsNormMod_eq (x m : ℚ) (hm : 0 < m) :
    jsNormMod x m = m * Int.fract (x / m) := by
  have hm' : m ≠ 0 := ne_of_gt hm
  have hf0 : 0 ≤ Int.fract (x / m) := Int.fract_nonneg _
  have hf1 : Int.fract (x / m) < 1 := Int.fract_lt_one _
  unfold jsNormMod
  rcases le_or_lt 0 (x / m) with hpos | hneg
  · rw [jsRem_nonneg_div hm' hpos]
    have harg : (m * Int.fract (x / m) + m) / m = Int.fract (x / m) + 1 := by
      field_simp
      ring
    unfold jsRem
    rw [harg]
    unfold jsTrunc
    rw [if_pos (by linarith : (0 : ℚ) ≤ Int.fract (x / m) + 1)]
    have hfl : ⌊Int.fract (x / m) + 1⌋ = 1 := by
      rw [Int.floor_add_one, Int.floor_eq_zero_iff.mpr ⟨hf0, hf1⟩]
      ring
    rw [hfl]
    push_cast
    ring
  · rcases eq_or_ne (Int.fract (x / m)) 0 with hfz | hfnz
    · have htint : x / m = (⌊x / m⌋ : ℚ) := by
        have := Int.self_sub_floor (x / m)
        rw [Int.fract] at hfz
        linarith
      have hceil : ⌈x / m⌉ = ⌊x / m⌋ := by
        rw [htint]; simp
      have h1 : jsRem x m = 0 := by
        unfold jsRem jsTrunc
        rw [if_neg (not_le.mpr hneg), hceil]
        have hx : x = m * (x / m) := by field_simp
        rw [htint] at hx
        linarith
      rw [h1, hfz, zero_add]
      unfold jsRem jsTrunc
      rw [div_self hm', if_pos (by norm_num : (0 : ℚ) ≤ 1)]
      norm_num
    · have hlt : (⌊x / m⌋ : ℚ) < x / m := by
        rcases lt_or_eq_of_le (Int.floor_le (x / m)) with h | h
        · exact h
        · exfalso; apply hfnz; rw [Int.fract, ← h]; simp
      have hceil : ⌈x / m⌉ = ⌊x / m⌋ + 1 := by
        have h2 := Int.ceil_le_floor_add_one (x / m)
        have h3 : ⌊x / m⌋ < ⌈x / m⌉ := by
          by_contra hc
          push_neg at hc
          have h4 : x / m ≤ (⌊x / m⌋ : ℚ) :=
            le_trans (Int.le_ceil (x / m)) (by exact_mod_cast hc)
          linarith
        omega
      have h1 : jsRem x m = m * (Int.fract (x / m) - 1) := by
        unfold jsRem jsTrunc
        rw [if_neg (not_le.mpr hneg), hceil, Int.fract]
        have hx : x = m * (x / m) := by field_simp
        nth_rewrite 1 [hx]
        push_cast
        ring
      rw [h1]
      have harg : m * (Int.fract (x / m) - 1) + m = m * Int.fract (x / m) := by ring
      rw [harg]
      have hdf : m * Int.fract (x / m) / m = Int.fract (x / m) := by field_simp
      unfold jsRem
      rw [hdf]
      unfold jsTrunc
      rw [if_pos hf0, Int.floor_eq_zero_iff.mpr ⟨hf0, hf1⟩]
      push_cast
      ring

theorem jsNormMod_eq_sub_floor (x m : ℚ) (hm : 0 < m) :
    jsNormMod x m = x - m * (⌊x / m⌋ : ℚ) := by
  rw [jsNormMod_eq x m hm, Int.fract, mul_sub, mul_div_cancel₀ _ (ne_of_gt hm)]

theorem jsNormMod_nonneg (x m : ℚ) (hm : 0 < m) : 0 ≤ jsNormMod x m := by
  rw [jsNormMod_eq x m hm]
  exact mul_nonneg hm.le (Int.fract_nonneg _)

theorem jsNormMod_lt (x m : ℚ) (hm : 0 < m) : jsNormMod x m < m := by
  rw [jsNormMod_eq x m hm]
  calc m * Int.fract (x / m) < m * 1 :=
        mul_lt_mul_of_pos_left (Int.fract_lt_one _) hm
    _ = m := mul_one m

theorem pathIndexFloat_eq (h : ℚ) :
    pathIndexFloat h = (180 - 30 * h) - 720 * (⌊(180 - 30 * h) / 720⌋ : ℚ) := by
  have harg : (NRECT : ℚ) / 2 - h / 24 * (2 * (NRECT : ℚ)) = 180 - 30 * h := by
    norm_num [NRECT]
    ring
  have hm : (0 : ℚ) < 2 * (NRECT : ℚ) := by norm_num [NRECT]
  simp only [pathIndexFloat]
  rw [harg, jsNormMod_eq_sub_floor _ _ hm]
  norm_num [NRECT]

theorem pathIndexFloat_nonneg (h : ℚ) : 0 ≤ pathIndexFloat h :=
  jsNormMod_nonneg _ _ (by norm_num [NRECT])

theorem pathIndexFloat_lt (h : ℚ) : pathIndexFloat h < 720 := by
  have h2 := jsNormMod_lt ((NRECT : ℚ) / 2 - h / 24 * (2 * (NRECT : ℚ))) (2 * (NRECT : ℚ))
    (by norm_num [NRECT])
  have h3 : 2 * (NRECT : ℚ) = 720 := by norm_num [NRECT]
  simp only [pathIndexFloat]
  exact lt_of_lt_of_eq h2 h3

theorem pathIndexFloat_period (h : ℚ) : pathIndexFloat (h + 24) = pathIndexFloat h := by
  rw [pathIndexFloat_eq, pathIndexFloat_eq]
  have harg : 180 - 30 * (h + 24) = (180 - 30 * h) - 720 := by ring
  rw [harg]
  have hdiv : ((180 - 30 * h) - 720) / 720 = (180 - 30 * h) / 720 - 1 := by ring
  rw [hdiv]
  have hfl : ⌊(180 - 30 * h) / 720 - 1⌋ = ⌊(180 - 30 * h) / 720⌋ - 1 := by
    exact_mod_cast Int.floor_sub_int ((180 - 30 * h) / 720) 1
  rw [hfl]
  push_cast
  ring

theorem pathIndexFloat_zero : pathIndexFloat 0 = 180 := by
  rw [pathIndexFloat_eq]
  norm_num

theorem pathIndexFloat_twelve : pathIndexFloat 12 = 540 := by
  rw [pathIndexFloat_eq]
  have h1 : (180 - 30 * (12 : ℚ)) = -180 := by norm_num
  rw [h1]
  have h2 : ⌊(-180 : ℚ) / 720⌋ = -1 := by
    rw [show ((-180 : ℚ) / 720) = -(1 / 4) by norm_num]
    rw [Int.floor_eq_iff]
    norm_num
  rw [h2]
  norm_num

/-- C4: the hour indicator's edge-path index is
`((N/2) − (h/24)·2N) mod 2N` with the modulo normalised to be non-negative
(equal to the mathematical `x − 2N·⌊x/2N⌋`), split into integer part
`index1`, `index2 = (index1+1) mod 2N` and fractional part; `h = 0` maps to
index `N/2` with fraction `0`, `h = 12` maps to `3N/2` with fraction `0`,
and `h` and `h + 24` map to the same index. -/
theorem hour_mapping_spec (h : ℚ) :
    pathIndexFloat h = (180 - 30 * h) - 720 * (⌊(180 - 30 * h) / 720⌋ : ℚ)
  ∧ pathIndexFloat (h + 24) = pathIndexFloat h
  ∧ index2 h = (index1 h + 1) % (2 * (NRECT : ℤ))
  ∧ index1 0 = (NRECT : ℤ) / 2 ∧ fraction 0 = 0
  ∧ index1 12 = 3 * (NRECT : ℤ) / 2 ∧ fraction 12 = 0 := by
  have hz : index1 0 = 180 := by
    unfold index1
    rw [pathIndexFloat_zero]
    exact_mod_cast Int.floor_intCast 180
  have ht : index1 12 = 540 := by
    unfold index1
    rw [pathIndexFloat_twelve]
    exact_mod_cast Int.floor_intCast 540
  refine ⟨pathIndexFloat_eq h, pathIndexFloat_period h, rfl, ?_, ?_, ?_, ?_⟩
  · rw [hz]; norm_num [NRECT]
  · unfold fraction
    rw [pathIndexFloat_zero, hz]
    norm_num
  · rw [ht]; norm_num [NRECT]
  · unfold fraction
    rw [pathIndexFloat_twelve, ht]
    norm_num

/-- C6: for every real hour value `h`, the edge-path indices `index1` and
`index2` lie in `[0, 2N)` and the centerline indices `index1 mod N` and
`index2 mod N` lie in `[0, N)`, so the `edgePath` and centerline lookups in
`updateClock` never go out of bounds. -/
theorem index_bounds (h : ℚ) :
    (0 ≤ pathIndexFloat h ∧ pathIndexFloat h < 2 * (NRECT : ℚ))
  ∧ (0 ≤ index1 h ∧ index1 h < 2 * (NRECT : ℤ))
  ∧ (0 ≤ index2 h ∧ index2 h < 2 * (NRECT : ℤ))
  ∧ (0 ≤ centerIndex1 h ∧ centerIndex1 h < (NRECT : ℤ))
  ∧ (0 ≤ centerIndex2 h ∧ centerIndex2 h < (NRECT : ℤ)) := by
  have hub : pathIndexFloat h < 2 * (NRECT : ℚ) := by
    have := pathIndexFloat_lt h
    have h3 : (720 : ℚ) = 2 * (NRECT : ℚ) := by norm_num [NRECT]
    linarith
  have h1lb : 0 ≤ index1 h := Int.floor_nonneg.mpr (pathIndexFloat_nonneg h)
  have h1ub : index1 h < 2 * (NRECT : ℤ) := by
    unfold index1
    rw [Int.floor_lt]
    calc pathIndexFloat h < 2 * (NRECT : ℚ) := hub
      _ = ((2 * (NRECT : ℤ) : ℤ) : ℚ) := by push_cast; ring
  refine ⟨⟨pathIndexFloat_nonneg h, hub⟩, ⟨h1lb, h1ub⟩, ?_, ?_, ?_⟩
  · exact ⟨Int.emod_nonneg _ (by norm_num [NRECT]),
      Int.emod_lt_of_pos _ (by norm_num [NRECT])⟩
  · exact ⟨Int.emod_nonneg _ (by norm_num [NRECT]),
      Int.emod_lt_of_pos _ (by norm_num [NRECT])⟩
  · exact ⟨Int.emod_nonneg _ (by norm_num [NRECT]),
      Int.emod_lt_of_pos _ (by norm_num [NRECT])⟩

/-! ## Mesh buffer lemmas -/

theorem length_flatMap_range {P : Type} (g : ℕ → List P) (c : ℕ)
    (hg : ∀ i, (g i).length = c) (N : ℕ) :
    ((List.range N).flatMap g).length = c * N := by
  induction N with
  | zero => simp
  | succ n ih =>
    rw [List.range_succ, List.flatMap_append, List.length_append, ih]
    simp [hg n]
    ring

theorem getElem?_flatMap_range {P : Type} (g : ℕ → List P) (c : ℕ)
    (hg : ∀ i, (g i).length = c) {N i k : ℕ} (hi : i < N) (hk : k < c) :
    ((List.range N).flatMap g)[c * i + k]? = (g i)[k]? := by
  induction N with
  | zero => omega
  | succ n ih =>
    rw [List.range_succ, List.flatMap_append]
    rcases Nat.lt_or_ge i n with hin | hin
    · rw [List.getElem?_append_left, ih hin]
      rw [length_flatMap_range g c hg n]
      calc c * i + k < c * i + c := Nat.add_lt_add_left hk _
        _ = c * (i + 1) := by ring
        _ ≤ c * n := Nat.mul_le_mul_left c hin
    · have hieq : i = n := by omega
      subst hieq
      have hlen : ((List.range i).flatMap g).length = c * i := length_flatMap_range g c hg i
      rw [List.getElem?_append_right (by rw [hlen]; exact Nat.le_add_right _ _)]
      rw [hlen, Nat.add_sub_cancel_left]
      simp

theorem segIndices_length (numPoints i : ℕ) : (segIndices numPoints i).length = 48 :=
  rfl

theorem mobiusIndices_length (numPoints : ℕ) :
    (mobiusIndices numPoints).length = 48 * numPoints :=
  length_flatMap_range _ 48 (segIndices_length numPoints) numPoints

set_option maxRecDepth 10000 in
/-- C1 counterexample: at `N = 3` the vertex buffer does hold `8·N` points,
but the index buffer holds `48·N = 144` triangle indices, not `36·N = 108`. -/
theorem mesh_sizes_counterexample :
    ¬ ((mobiusVertices (fun n => n) (fun n => n) (fun n => n) (fun n => n)
          (fun n => n) (fun n => n) (fun n => n) (fun n => n) 3).length = 8 * 3
       ∧ (mobiusIndices 3).length = 36 * 3) := by
  decide

/-- C1 (amended): for every `N ≥ 3` the vertex buffer holds exactly `8·N`
points — 8 per cross-section, pushed in order front-inner, back-inner,
front-outer, back-outer, then the four thirdway points — and the index
buffer holds exactly `48·N` triangle indices (16 triangles per segment). -/
theorem mesh_buffer_sizes {P : Type} (fic bic foc boc tfbi tbfi tfbo tbfo : ℕ → P)
    (N : ℕ) (hN : 3 ≤ N) :
    (mobiusVertices fic bic foc boc tfbi tbfi tfbo tbfo N).length = 8 * N
  ∧ (∀ i, i < N → ∀ k, k < 8 →
      (mobiusVertices fic bic foc boc tfbi tbfi tfbo tbfo N)[8 * i + k]? =
        some (crossSectionPoint fic bic foc boc tfbi tbfi tfbo tbfo k i))
  ∧ (mobiusIndices N).length = 48 * N := by
  have hg : ∀ i, ([fic i, bic i, foc i, boc i, tfbi i, tbfi i, tfbo i, tbfo i]).length = 8 :=
    fun i => rfl
  refine ⟨length_flatMap_range _ 8 hg N, ?_, mobiusIndices_length N⟩
  intro i hi k hk
  rw [mobiusVertices, getElem?_flatMap_range _ 8 hg hi hk]
  interval_cases k <;> rfl

/-- C1 witness: the amended size theorem at `N = 3` with natural-number
point families. -/
theorem mesh_buffer_sizes_witness :
    (mobiusVertices (fun n => n) (fun n => 10 + n) (fun n => 20 + n) (fun n => 30 + n)
      (fun n => 40 + n) (fun n => 50 + n) (fun n => 60 + n) (fun n => 70 + n) 3).length = 8 * 3
  ∧ (∀ i, i < 3 → ∀ k, k < 8 →
      (mobiusVertices (fun n => n) (fun n => 10 + n) (fun n => 20 + n) (fun n => 30 + n)
        (fun n => 40 + n) (fun n => 50 + n) (fun n => 60 + n) (fun n => 70 + n) 3)[8 * i + k]? =
        some (crossSectionPoint (fun n => n) (fun n => 10 + n) (fun n => 20 + n) (fun n => 30 + n)
          (fun n => 40 + n) (fun n => 50 + n) (fun n => 60 + n) (fun n => 70 + n) k i))
  ∧ (mobiusIndices 3).length = 48 * 3 :=
  mesh_buffer_sizes _ _ _ _ _ _ _ _ 3 (by norm_num)

/-- C2: the triangles emitted for segment `i` reference only vertex indices
of cross-sections `i` and `(i+1) mod N`; for `i < N−1` the second
cross-section is addressed through its raw base `8·(i+1)`, while at
`i = N−1` the corner indices for cross-section 0 are the fixed permutation
front-inner→3, back-inner→2, front-outer→1, back-outer→0 and the thirdway
indices the analogous shifted set 7, 6, 5, 4. -/
theorem segment_wrap_invariant (N i : ℕ) (hN : 3 ≤ N) (hi : i < N) :
    (∀ j ∈ segIndices N i, j / 8 = i ∨ j / 8 = (i + 1) % N)
  ∧ (i ≠ N - 1 → segIndices N i =
      segTemplate (i * 8) (i * 8 + 1) (i * 8 + 2) (i * 8 + 3)
        (i * 8 + 4) (i * 8 + 5) (i * 8 + 6) (i * 8 + 7)
        ((i + 1) * 8) ((i + 1) * 8 + 1) ((i + 1) * 8 + 2) ((i + 1) * 8 + 3)
        ((i + 1) * 8 + 4) ((i + 1) * 8 + 5) ((i + 1) * 8 + 6) ((i + 1) * 8 + 7))
  ∧ (i = N - 1 → segIndices N i =
      segTemplate (i * 8) (i * 8 + 1) (i * 8 + 2) (i * 8 + 3)
        (i * 8 + 4) (i * 8 + 5) (i * 8 + 6) (i * 8 + 7)
        3 2 1 0 7 6 5 4) := by
  by_cases hlast : i = N - 1
  · have hmod : (i + 1) % N = 0 := by
      rw [hlast]
      have : N - 1 + 1 = N := by omega
      rw [this, Nat.mod_self]
    have heq : segIndices N i =
        segTemplate (i * 8) (i * 8 + 1) (i * 8 + 2) (i * 8 + 3)
          (i * 8 + 4) (i * 8 + 5) (i * 8 + 6) (i * 8 + 7)
          3 2 1 0 7 6 5 4 := by
      simp only [segIndices, if_pos hlast]
    refine ⟨?_, fun hne => absurd hlast hne, fun _ => heq⟩
    rw [heq, hmod]
    simp only [segTemplate, List.forall_mem_cons, List.not_mem_nil, false_implies,
      implies_true, and_true, or_true, true_and]
    omega
  · have hi1 : i + 1 < N := by omega
    have hmod : (i + 1) % N = i + 1 := Nat.mod_eq_of_lt hi1
    have heq : segIndices N i =
        segTemplate (i * 8) (i * 8 + 1) (i * 8 + 2) (i * 8 + 3)
          (i * 8 + 4) (i * 8 + 5) (i * 8 + 6) (i * 8 + 7)
          ((i + 1) * 8) ((i + 1) * 8 + 1) ((i + 1) * 8 + 2) ((i + 1) * 8 + 3)
          ((i + 1) * 8 + 4) ((i + 1) * 8 + 5) ((i + 1) * 8 + 6) ((i + 1) * 8 + 7) := by
      simp only [segIndices, if_neg hlast, hmod]
    refine ⟨?_, fun _ => heq, fun habs => absurd habs hlast⟩
    rw [heq, hmod]
    simp only [segTemplate, List.forall_mem_cons, List.not_mem_nil, false_implies,
      implies_true, and_true, or_true, true_and]
    omega

/-- C2 witness: the wrap invariant instantiated at `N = 3`, `i = 2` (the
wrap segment). -/
theorem segment_wrap_invariant_witness :
    (∀ j ∈ segIndices 3 2, j / 8 = 2 ∨ j / 8 = (2 + 1) % 3)
  ∧ (2 ≠ 3 - 1 → segIndices 3 2 =
      segTemplate (2 * 8) (2 * 8 + 1) (2 * 8 + 2) (2 * 8 + 3)
        (2 * 8 + 4) (2 * 8 + 5) (2 * 8 + 6) (2 * 8 + 7)
        ((2 + 1) * 8) ((2 + 1) * 8 + 1) ((2 + 1) * 8 + 2) ((2 + 1) * 8 + 3)
        ((2 + 1) * 8 + 4) ((2 + 1) * 8 + 5) ((2 + 1) * 8 + 6) ((2 + 1) * 8 + 7))
  ∧ (2 = 3 - 1 → segIndices 3 2 =
      segTemplate (2 * 8) (2 * 8 + 1) (2 * 8 + 2) (2 * 8 + 3)
        (2 * 8 + 4) (2 * 8 + 5) (2 * 8 + 6) (2 * 8 + 7)
        3 2 1 0 7 6 5 4) :=
  segment_wrap_invariant 3 2 (by norm_num) (by norm_num)

/-- C3: under scheme `standard` the material classifier is the pure function
of `i` given by the spec's table — outer dark iff `i mod 30 = 0`, middle
dark iff `i mod 30 = 0` or `i mod 6 = 0` — and in particular `i = 0` yields
dark/dark, `i = 6` light/dark, `i = 1` light/light (dark = material 1,
light = material 0). -/
theorem standard_scheme_classification (i : ℕ) (hi : i < 360) :
    classifySegment "standard" i =
      ((if i % 30 = 0 then 1 else 0), (if i % 30 = 0 ∨ i % 6 = 0 then 1 else 0))
  ∧ classifySegment "standard" 0 = (1, 1)
  ∧ classifySegment "standard" 6 = (0, 1)
  ∧ classifySegment "standard" 1 = (0, 0) := by
  refine ⟨?_, by decide, by decide, by decide⟩
  simp only [classifySegment]
  by_cases h30 : i % 30 = 0 <;> by_cases h6 : i % 6 = 0 <;>
    simp [h30, h6]

/-- C3 witness: the classification theorem applied at `i = 0`. -/
theorem standard_scheme_classification_witness :
    classifySegment "standard" 0 =
      ((if 0 % 30 = 0 then 1 else 0), (if 0 % 30 = 0 ∨ 0 % 6 = 0 then 1 else 0))
  ∧ classifySegment "standard" 0 = (1, 1)
  ∧ classifySegment "standard" 6 = (0, 1)
  ∧ classifySegment "standard" 1 = (0, 0) :=
  standard_scheme_classification 0 (by norm_num)

/-- C5: in fast mode with the `outer-ring` hour shape, the effective hour
equals `round ((24/60)·s)` exactly when the fractional position within the
hour is within 12 of 60 fast-minutes of the nearest hour boundary, and
equals the raw value `(24/60)·s` outside that window; the minute value is
always derived from the raw hour fraction; every other shape gets the
compressed mapping with no pause window. -/
theorem fastMode_pause_spec (s hour24 min60 : ℚ) (hs : 0 ≤ s) :
    (min (Int.fract ((24 / 60 : ℚ) * s)) (1 - Int.fract ((24 / 60 : ℚ) * s)) * 60 ≤ 12 →
      (fastTransform true "outer-ring" s hour24 min60).1 = round ((24 / 60 : ℚ) * s))
  ∧ (¬ min (Int.fract ((24 / 60 : ℚ) * s)) (1 - Int.fract ((24 / 60 : ℚ) * s)) * 60 ≤ 12 →
      (fastTransform true "outer-ring" s hour24 min60).1 = (24 / 60 : ℚ) * s)
  ∧ (fastTransform true "outer-ring" s hour24 min60).2 =
      Int.fract ((24 / 60 : ℚ) * s) * 60
  ∧ (∀ shape : String, shape ≠ "outer-ring" →
      fastTransform true shape s hour24 min60 =
        ((24 / 60 : ℚ) * s, Int.fract ((24 / 60 : ℚ) * s) * 60)) := by
  have hraw : 0 ≤ (24 / 60 : ℚ) * s := by positivity
  have hrem : jsRem ((24 / 60 : ℚ) * s) 1 = Int.fract ((24 / 60 : ℚ) * s) := by
    unfold jsRem jsTrunc
    rw [div_one, if_pos hraw, Int.fract]
    ring
  have hf0 : 0 ≤ Int.fract ((24 / 60 : ℚ) * s) := Int.fract_nonneg _
  have hf1 : Int.fract ((24 / 60 : ℚ) * s) < 1 := Int.fract_lt_one _
  have hcondeq :
      (if Int.fract ((24 / 60 : ℚ) * s) < 1 / 2 then Int.fract ((24 / 60 : ℚ) * s) * 60
       else (1 - Int.fract ((24 / 60 : ℚ) * s)) * 60) =
      min (Int.fract ((24 / 60 : ℚ) * s)) (1 - Int.fract ((24 / 60 : ℚ) * s)) * 60 := by
    rcases lt_or_ge (Int.fract ((24 / 60 : ℚ) * s)) (1 / 2) with h | h
    · rw [if_pos h, min_eq_left (by linarith)]
    · rw [if_neg (not_lt.mpr h), min_eq_right (by linarith)]
  have hfr : (fastTransform true "outer-ring" s hour24 min60) =
      (if min (Int.fract ((24 / 60 : ℚ) * s)) (1 - Int.fract ((24 / 60 : ℚ) * s)) * 60 ≤ 12
        then ((jsRound ((24 / 60 : ℚ) * s) : ℤ) : ℚ) else (24 / 60 : ℚ) * s,
       Int.fract ((24 / 60 : ℚ) * s) * 60) := by
    simp only [fastTransform]
    rw [if_pos (by norm_num)]
    rw [hrem, hcondeq, Int.fract]
  refine ⟨?_, ?_, ?_, ?_⟩
  · intro hwin
    rw [hfr]
    simp only [if_pos hwin]
    rw [round_eq, jsRound]
  · intro hwin
    rw [hfr]
    simp only [if_neg hwin]
  · rw [hfr]
  · intro shape hshape
    have hbeq : (shape == "outer-ring") = false := by
      rw [beq_eq_false_iff_ne]
      exact hshape
    simp only [fastTransform, hbeq, Bool.and_false, Bool.false_eq_true, if_false,
      if_pos rfl, Int.fract]
    simp

/-- C5 witness: at `s = 3` real seconds the raw fast hour is `1.2`, which is
exactly 12 fast-minutes past the hour, so the hour pauses at `round 1.2 = 1`
while the minute stays at the raw fraction; shape `sphere` passes through. -/
theorem fastMode_pause_spec_witness :
    (fastTransform true "outer-ring" 3 0 0).1 = round ((24 / 60 : ℚ) * 3)
  ∧ fastTransform true "sphere" 3 0 0 =
      ((24 / 60 : ℚ) * 3, Int.fract ((24 / 60 : ℚ) * 3) * 60) := by
  have h := fastMode_pause_spec 3 0 0 (by norm_num)
  refine ⟨h.1 ?_, h.2.2.2 "sphere" (by decide)⟩
  have : Int.fract ((24 / 60 : ℚ) * 3) = 1 / 5 := by
    rw [show ((24 / 60 : ℚ) * 3) = 6 / 5 by norm_num, Int.fract]
    rw [show ⌊(6 / 5 : ℚ)⌋ = 1 by rw [Int.floor_eq_iff] <;> norm_num]
    norm_num
  rw [this]
  norm_num

/-- C7 counterexample: with the unrecognized scheme `"bogus"` the classifier
returns light/light at `i = 0`, not the dark/dark of the documented default
scheme `standard`; with the unrecognized shape `"bogus"` the hours indicator
gets a sphere, not the documented default `outer-ring` torus. -/
theorem fallback_counterexample :
    classifySegment "bogus" 0 ≠ classifySegment "standard" 0
  ∧ geometryFor "hours" "bogus" ≠ geometryFor "hours" "outer-ring" := by
  decide

/-- C7 (amended): an unrecognized tick scheme yields material 0 (light) for
both groups of every segment, and an unrecognized indicator shape selects the
same geometry as `sphere` for every indicator type (which coincides with the
documented default only for seconds); both functions are total, so the frame
never fails. -/
theorem fallback_behavior (scheme shape : String)
    (hs1 : scheme ≠ "minimal") (hs2 : scheme ≠ "standard")
    (hs3 : scheme ≠ "alternating") (hs4 : scheme ≠ "alternating_ticks")
    (hp1 : shape ≠ "disc") (hp2 : shape ≠ "ring") (hp3 : shape ≠ "outer-ring") :
    (∀ i : ℕ, classifySegment scheme i = (0, 0))
  ∧ (∀ type : String, geometryFor type shape = geometryFor type "sphere") := by
  have hb1 : (scheme == "minimal") = false := by rw [beq_eq_false_iff_ne]; exact hs1
  have hb2 : (scheme == "standard") = false := by rw [beq_eq_false_iff_ne]; exact hs2
  have hb3 : (scheme == "alternating") = false := by rw [beq_eq_false_iff_ne]; exact hs3
  have hb4 : (scheme == "alternating_ticks") = false := by
    rw [beq_eq_false_iff_ne]; exact hs4
  have hc1 : (shape == "disc") = false := by rw [beq_eq_false_iff_ne]; exact hp1
  have hc2 : (shape == "ring") = false := by rw [beq_eq_false_iff_ne]; exact hp2
  have hc3 : (shape == "outer-ring") = false := by rw [beq_eq_false_iff_ne]; exact hp3
  constructor
  · intro i
    simp only [classifySegment, hb1, hb2, hb3, hb4, Bool.false_eq_true, if_false]
  · intro type
    simp only [geometryFor, hc1, hc2, hc3, Bool.false_eq_true, if_false,
      Bool.or_self, Bool.or_false]
    rfl

/-- C7 witness: the fallback theorem applied to the unrecognized scheme and
shape `"bogus"`, evaluated at segment 5 and the seconds indicator. -/
theorem fallback_behavior_witness :
    classifySegment "bogus" 5 = (0, 0)
  ∧ geometryFor "seconds" "bogus" = geometryFor "seconds" "sphere" := by
  have h := fallback_behavior "bogus" "bogus" (by decide) (by decide) (by decide)
    (by decide) (by decide) (by decide) (by decide)
  exact ⟨h.1 5, h.2 "seconds"⟩

/-- C8: entering zen mode and then exiting it restores exactly the tick
scheme, the hour-label visibility and the fast-mode flag captured at entry. -/
theorem zen_roundtrip (s : ClockState) (h : s.zenMode = false) :
    (toggleZenMode (toggleZenMode s)).currentTickScheme = s.currentTickScheme
  ∧ (toggleZenMode (toggleZenMode s)).hourNumbersVisible = s.hourNumbersVisible
  ∧ (toggleZenMode (toggleZenMode s)).fastMode = s.fastMode := by
  cases s with
  | mk zenMode currentTickScheme hourNumbersVisible fastMode sceneBackground
      bodyBackgroundImage bodyBackgroundColor preZenState =>
    simp only at h
    subst h
    cases hourNumbersVisible <;> simp [toggleZenMode]

/-- C8 witness: the roundtrip theorem on a concrete pre-zen state with
scheme `alternating`, visible hour labels and fast mode on. -/
theorem zen_roundtrip_witness :
    (toggleZenMode (toggleZenMode
        { zenMode := false, currentTickScheme := "alternating",
          hourNumbersVisible := some true, fastMode := true,
          sceneBackground := 0x505050, bodyBackgroundImage := "",
          bodyBackgroundColor := "",
          preZenState :=
            { hoursVisible := false, tickScheme := "standard",
              sceneBackground := 0, fastMode := false,
              backgroundImage := "", backgroundColor := "" } })).currentTickScheme =
      "alternating"
  ∧ (toggleZenMode (toggleZenMode
        { zenMode := false, currentTickScheme := "alternating",
          hourNumbersVisible := some true, fastMode := true,
          sceneBackground := 0x505050, bodyBackgroundImage := "",
          bodyBackgroundColor := "",
          preZenState :=
            { hoursVisible := false, tickScheme := "standard",
              sceneBackground := 0, fastMode := false,
              backgroundImage := "", backgroundColor := "" } })).hourNumbersVisible =
      some true
  ∧ (toggleZenMode (toggleZenMode
        { zenMode := false, currentTickScheme := "alternating",
          hourNumbersVisible := some true, fastMode := true,
          sceneBackground := 0x505050, bodyBackgroundImage := "",
          bodyBackgroundColor := "",
          preZenState :=
            { hoursVisible := false, tickScheme := "standard",
              sceneBackground := 0, fastMode := false,
              backgroundImage := "", backgroundColor := "" } })).fastMode = true :=
  zen_roundtrip _ rfl

/-- C9: the seconds value driving the seconds indicator is always the raw
wall-clock seconds (whole seconds plus milliseconds/1000), identical whether
fast mode is on or off: the fast-mode branches rewrite only hour and minute. -/
theorem seconds_unaffected_by_fastMode (fm : Bool) (shape : String)
    (iHour24 iMin60 iSec60 millisec : ℕ) :
    (computeTimes fm shape iHour24 iMin60 iSec60 millisec).2.2 =
      (iSec60 : ℚ) + (millisec : ℚ) / 1000
  ∧ (computeTimes true shape iHour24 iMin60 iSec60 millisec).2.2 =
      (computeTimes false shape iHour24 iMin60 iSec60 millisec).2.2 := by
  constructor <;> simp [computeTimes]

/-- C10: `setIndicatorShape('seconds', 'ring')` and
`setIndicatorShape('seconds', 'outer-ring')` take the ring/outer-ring branch,
which assigns a geometry only for hours and minutes, so the seconds mesh is
built with an undefined geometry instead of the sphere default. -/
theorem seconds_ring_geometry_undefined :
    geometryFor "seconds" "ring" = none
  ∧ geometryFor "seconds" "outer-ring" = none
  ∧ geometryFor "seconds" "sphere" = some (Geometry.sphere m_SecondsRadius 32 32) :=
  ⟨rfl, rfl, rfl⟩

end MobiusClock
